import Mathlib

/-!
Shallow embedding of the message-routing and nutrition-resolution core of the
HiPat repository, together with proofs about the claims of its specification.

Modelling conventions:
* JavaScript numbers are idealised as rationals (for the nutrition pipeline and
  persistence layer, where all arithmetic is exact sums and roundings) and as
  elements of a linear ordered field (for the router, where a square root is
  needed; theorems instantiate the field with the reals and the square-root
  parameter with Real.sqrt).
* A JS division whose result is NaN or +-Infinity (division by zero, or an
  out-of-range array access feeding the arithmetic) is modelled as Option.none.
* External calls (Supabase queries, LLM providers, embedding service) are
  modelled as environment records supplying their outcomes; a call that can
  reject is given an outcome type with a throws constructor, a call whose
  implementation catches all exceptions internally and returns null is given
  an Option-valued outcome.
-/

namespace HiPat

/-! ### JS helpers -/

/-- JS truthiness fallback on numbers: the expression x || d is d when x is 0
and x otherwise (NaN does not occur in the rational fragment we model). -/
def jsOrQ (x d : ℚ) : ℚ := if x = 0 then d else x

/-- JS truthiness fallback on strings: s || d is d when s is empty. -/
def jsOrS (s d : String) : String := if s = "" then d else s

/-- JS truthiness fallback on an optional string field (null, undefined and
the empty string are falsy). -/
def jsOrOptS (s : Option String) (d : String) : String :=
  match s with
  | some v => if v = "" then d else v
  | none => d

/-- JS Math.round: floor of x + 1/2 (round half toward positive infinity). -/
def jsRound (x : ℚ) : ℚ := ((⌊x + 1/2⌋ : ℤ) : ℚ)

/-! ### Semantic router: cosine and decideRoute (src/unnamed/part_003)

The cosine function of part_003 (and the identical copy in part_005) is

  function cosine(a,b){ let d=0,na=0,nb=0;
    for(let i=0;i<a.length;i++){d+=a[i]*b[i];na+=a[i]*a[i];nb+=b[i]*b[i];}
    return d/(Math.sqrt(na)*Math.sqrt(nb)); }

The loop runs over the indices of a, so nb sums the squares of only the first
a.length entries of b; if a is longer than b the accesses b[i] are undefined
and the whole result is NaN. There is no guard on the denominator: when it is
zero the JS result is NaN (or +-Infinity), which we model as none. -/

section Router

variable {R : Type} [LinearOrderedField R]

/-- Dot product accumulated by the cosine loop (truncated at the length of the
shorter list; used below only when a is at most as long as b). -/
def dotJS (a b : List R) : R := (List.zipWith (fun x y => x * y) a b).sum

/-- Sum of squares accumulated by the cosine loop. -/
def sumsq (a : List R) : R := (a.map (fun x => x * x)).sum

/-- Embedding of the cosine of part_003/part_005. The square root is passed as
a parameter so the definition stays computable; every theorem instantiates it
with Real.sqrt. Returns none exactly when the JS computation does not produce
a finite number: an out-of-range access (a longer than b) or a zero
denominator. -/
def cosine (sqrtR : R → R) (a b : List R) : Option R :=
  if b.length < a.length then none
  else
    let na := sumsq a
    let nb := sumsq (b.take a.length)
    let denom := sqrtR na * sqrtR nb
    if denom = 0 then none else some (dotJS a b / denom)

/-- A route row as selected from the intent_routes table (null thresholds are
modelled as none; the code substitutes defaults with the ?? operator). -/
structure RouteR (R : Type) where
  name : String
  embedding : List R
  hi_threshold : Option R
  mid_threshold : Option R

/-- The running best record of decideRoute. -/
structure BestT (R : Type) where
  name : String
  sim : R
  hi : R
  mid : R
  why : String

/-- Initial best record: the default AMA route seeded at similarity -1 with
thresholds 0.85 and 0.60. -/
def initBest : BestT R :=
  { name := "AMA", sim := -1, hi := 85/100, mid := 60/100,
    why := "Searching my knowledge and the web for this." }

/-- The reasoning string attached when a route takes the lead. -/
def routeWhy (n : String) : String :=
  if n = "TMWYA" then "Using my nutrition tools to log this."
  else "Routing based on semantic match."

/-- One iteration of the route loop of decideRoute: routes with an absent or
empty embedding are skipped; a NaN similarity (cosine = none) never passes the
strict comparison sim > best.sim; on success the best record is replaced,
reading the thresholds with defaults 0.85 and 0.60. -/
def stepBest (sqrtR : R → R) (q : List R) (b : BestT R) (r : RouteR R) : BestT R :=
  if r.embedding.isEmpty then b
  else
    match cosine sqrtR q r.embedding with
    | none => b
    | some sim =>
      if sim > b.sim then
        { name := r.name, sim := sim,
          hi := r.hi_threshold.getD (85/100), mid := r.mid_threshold.getD (60/100),
          why := routeWhy r.name }
      else b

/-- The decision record returned by decideRoute. -/
structure Decision (R : Type) where
  route : String
  confidence : String
  sim : R
  hi : R
  mid : R
  why : String

/-- Embedding of decideRoute of part_003. The already-computed message
embedding q is passed in (the embed call itself is an external service that
returns an empty vector on failure, which is the q.isEmpty branch). -/
def decideRoute (sqrtR : R → R) (q : List R) (routes : List (RouteR R)) : Decision R :=
  if q.isEmpty then
    { route := "AMA", confidence := "low", sim := 0, hi := 85/100, mid := 60/100,
      why := "Embedding failed, defaulting to AMA" }
  else
    let best := routes.foldl (stepBest sqrtR q) initBest
    let level : String :=
      if best.sim ≥ best.hi then "high"
      else if best.sim ≥ best.mid then "mid"
      else "low"
    { route := if level = "low" then "AMA" else best.name,
      confidence := level, sim := best.sim, hi := best.hi, mid := best.mid,
      why := best.why }

/-- The similarities actually entering the comparison: one for every route with
a non-empty embedding whose cosine against q is a number (not NaN). -/
def validSims (sqrtR : R → R) (q : List R) (routes : List (RouteR R)) : List R :=
  routes.filterMap (fun r =>
    if r.embedding.isEmpty then none else cosine sqrtR q r.embedding)

end Router

/-! ### Route cache load (src/src/core/router/routesCache.ts)

loadRoutesOnce checks a module-level cached variable and, when it is null,
awaits a Supabase query and then assigns the variable. The await between the
check and the assignment is a suspension point, so a second caller can run its
check before the first load completes. We model a set of callers, each a
two-step program (check, then complete-the-fetch-and-assign), driven by an
arbitrary scheduler; a fetch is counted when a caller passes the null check.
On fetch failure the code assigns an empty list, so the cache always becomes
non-null when a fetch completes; the fetched value v is a parameter. -/

/-- Phase of one caller of loadRoutesOnce. -/
inductive CPhase
  | ready
  | fetching
  | done
deriving DecidableEq

/-- Shared state: the module-level cached variable, the number of storage
fetches issued so far, and the phase of every caller. -/
structure CacheState where
  cached : Option (List String)
  fetches : ℕ
  callers : List CPhase
deriving DecidableEq

/-- One scheduler step advancing caller i. A ready caller returns immediately
on a non-null cache (an empty cached list is a truthy JS array and is also
returned); on a null cache it issues the fetch and suspends. A fetching caller
completes: the cache is assigned and the caller returns. -/
def loadStep (v : List String) (st : CacheState) (i : ℕ) : CacheState :=
  match st.callers.get? i with
  | none => st
  | some .done => st
  | some .fetching =>
      { st with cached := some v, callers := st.callers.set i .done }
  | some .ready =>
      match st.cached with
      | some _ => { st with callers := st.callers.set i .done }
      | none => { st with fetches := st.fetches + 1, callers := st.callers.set i .fetching }

/-- Run a schedule (a list of caller indices) from a state. -/
def loadRun (v : List String) (sched : List ℕ) (st : CacheState) : CacheState :=
  sched.foldl (loadStep v) st

/-- Initial state for n concurrent callers: cache null, no fetch issued. -/
def initCache (n : ℕ) : CacheState :=
  { cached := none, fetches := 0, callers := List.replicate n .ready }

/-! ### Macro lookup cascade (src/src/core/nutrition/unifiedPipeline.ts)

Data shapes follow the objects built by the source. Every provider in the
repository that returns a non-null result constructs a full macros object, so
the defensive !macroResult.macros branches of the source are never taken and
the macros field is modelled as always present. -/

/-- The macros object of a provider result. -/
structure Macros where
  kcal : ℚ
  protein_g : ℚ
  carbs_g : ℚ
  fat_g : ℚ
  fiber_g : ℚ
deriving DecidableEq

/-- A provider result (the shape returned by lookupGlobalCache,
lookupBrandResolver, lookupOpenAI and the PROVIDERS map entries). -/
structure MacroResult where
  name : String
  serving_label : String
  grams_per_serving : ℚ
  macros : Macros
  confidence : ℚ
  source : String
deriving DecidableEq

/-- An item entering lookupMacrosInCascade (output of portionResolver). -/
structure FoodItem where
  name : String
  quantity : Option ℚ
  unit : Option String
  brand : Option String
  serving_label : Option String
  size_label : Option String
deriving DecidableEq

/-- The normalized item built at the top of the per-item loop of
lookupMacrosInCascade. -/
structure NormalizedQ where
  name : String
  amount : ℚ
  unit : Option String
  brand : Option String
  serving_label : Option String
  size_label : Option String
  is_branded : Bool
deriving DecidableEq

/-- Conversion to the normalized format: amount is item.quantity || 1 (JS
truthiness: null, undefined and 0 all yield 1) and is_branded is !!item.brand
(an empty brand string is falsy). -/
def mkNormalized (item : FoodItem) : NormalizedQ :=
  { name := item.name
    amount := match item.quantity with
      | some q => if q = 0 then 1 else q
      | none => 1
    unit := item.unit
    brand := item.brand
    serving_label := item.serving_label
    size_label := item.size_label
    is_branded := match item.brand with
      | some b => b ≠ ""
      | none => false }

/-- The provider keys that can appear in the ORDER list of the cascade. -/
inductive PKey
  | brand
  | generic
  | gemini
  | openai
  | brand_resolver
deriving DecidableEq

/-- String name of a provider key, used for the provider field of results. -/
def keyName : PKey → String
  | .brand => "brand"
  | .generic => "generic"
  | .gemini => "gemini"
  | .openai => "openai"
  | .brand_resolver => "brand_resolver"

/-- Outcome of one provider call inside the cascade loop: the call may reject
(throws) or resolve with null or a result. -/
inductive ProviderOutcome
  | throws
  | returns (r : Option MacroResult)
deriving DecidableEq

/-- Environment of external calls made by lookupMacrosInCascade. The entries
of the PROVIDERS map (brand, generic, gemini) are arbitrary and may throw;
lookupGlobalCache, lookupOpenAI and lookupBrandResolver each wrap their whole
body in try/catch and return null on any failure, so they never throw. -/
structure CascadeEnv where
  cache : NormalizedQ → Option MacroResult
  brandP : NormalizedQ → ProviderOutcome
  genericP : NormalizedQ → ProviderOutcome
  geminiP : NormalizedQ → ProviderOutcome
  openaiP : NormalizedQ → Option MacroResult
  brandResolver : NormalizedQ → Option MacroResult

/-- The Gemini kill-switch constant of unifiedPipeline.ts (hard-coded false
in the source: emergency disable due to 502 errors). -/
def GEMINI_ENABLED : Bool := false

/-- The ORDER list of the cascade: branded items try the brand map first,
whole foods try the generic provider first; the gemini slot is replaced by
openai while the kill-switch is off; brand_resolver is appended when absent
(a no-op for every branch of the source as written). -/
def orderFor (is_branded : Bool) : List PKey :=
  let o : List PKey :=
    if is_branded then
      if GEMINI_ENABLED then [.brand, .gemini, .generic, .brand_resolver]
      else [.brand, .openai, .generic, .brand_resolver]
    else
      if GEMINI_ENABLED then [.generic, .gemini, .brand_resolver]
      else [.generic, .openai, .brand_resolver]
  if PKey.brand_resolver ∈ o then o else o ++ [.brand_resolver]

/-- Dispatch of one provider key to its outcome (the providerFn selection of
the loop; openai and brand_resolver resolve to the in-file functions, which
never throw). -/
def outcomeOf (env : CascadeEnv) (n : NormalizedQ) : PKey → ProviderOutcome
  | .brand => env.brandP n
  | .generic => env.genericP n
  | .gemini => env.geminiP n
  | .openai => .returns (env.openaiP n)
  | .brand_resolver => .returns (env.brandResolver n)

/-- The provider loop of the cascade. State: the current macroResult (a throw
leaves it unchanged, a resolved call overwrites it), the providerUsed string,
and the list of providers invoked so far. A result with kcal > 0 breaks the
loop; everything else continues with the next provider. -/
def cascadeLoop (env : CascadeEnv) (n : NormalizedQ) :
    List PKey → Option MacroResult → String → Option MacroResult × String × List PKey
  | [], mr, used => (mr, used, [])
  | k :: ks, mr, used =>
    match outcomeOf env n k with
    | .throws =>
        let r := cascadeLoop env n ks mr used
        (r.1, r.2.1, k :: r.2.2)
    | .returns none =>
        let r := cascadeLoop env n ks none used
        (r.1, r.2.1, k :: r.2.2)
    | .returns (some m) =>
        if 0 < m.macros.kcal then (some m, keyName k, [k])
        else
          let r := cascadeLoop env n ks (some m) used
          (r.1, r.2.1, k :: r.2.2)

/-- The post-loop test !macroResult || !macroResult.macros ||
macroResult.macros.kcal === 0 guarding both the brand-resolver retry and the
stub. -/
def stubCond : Option MacroResult → Bool
  | none => true
  | some r => r.macros.kcal == 0

/-- The stub result emitted when every provider failed: all macro fields 0,
confidence 0.1, source stub; serving_label is item.unit || serving. -/
def stubResult (item : FoodItem) : MacroResult :=
  { name := item.name
    serving_label := jsOrOptS item.unit "serving"
    grams_per_serving := 100
    macros := ⟨0, 0, 0, 0, 0⟩
    confidence := 1/10
    source := "stub" }

/-- An entry of the results array of the cascade: the spread of the input item
plus the macro fields, confidence, source and provider. -/
structure MacroItemOut where
  name : String
  quantity : Option ℚ
  unit : Option String
  brand : Option String
  serving_label : Option String
  size_label : Option String
  calories : ℚ
  protein_g : ℚ
  carbs_g : ℚ
  fat_g : ℚ
  fiber_g : ℚ
  confidence : ℚ
  source : String
  provider : String
deriving DecidableEq

/-- The results.push object: macro fields default through || 0, confidence
through || 0.1, source through || unknown. -/
def emitItem (item : FoodItem) (r : MacroResult) (used : String) : MacroItemOut :=
  { name := item.name, quantity := item.quantity, unit := item.unit,
    brand := item.brand, serving_label := item.serving_label,
    size_label := item.size_label,
    calories := jsOrQ r.macros.kcal 0,
    protein_g := jsOrQ r.macros.protein_g 0,
    carbs_g := jsOrQ r.macros.carbs_g 0,
    fat_g := jsOrQ r.macros.fat_g 0,
    fiber_g := jsOrQ r.macros.fiber_g 0,
    confidence := jsOrQ r.confidence (1/10),
    source := jsOrS r.source "unknown",
    provider := used }

/-- Resolution of a single item: global cache first (a hit short-circuits the
provider loop entirely); on a miss the ORDER loop runs, then the explicit
brand-resolver retry, then the stub. The second component is the list of
provider functions invoked, in order (the cache query is not a provider
function). -/
def lookupOne (env : CascadeEnv) (item : FoodItem) : MacroItemOut × List PKey :=
  let n := mkNormalized item
  match env.cache n with
  | some r => (emitItem item r "global_cache", [])
  | none =>
    let lp := cascadeLoop env n (orderFor n.is_branded) none "global_cache"
    if stubCond lp.1 then
      match env.brandResolver n with
      | some r2 =>
          if stubCond (some r2) then
            (emitItem item (stubResult item) "stub", lp.2.2 ++ [.brand_resolver])
          else
            (emitItem item r2 "brand_resolver", lp.2.2 ++ [.brand_resolver])
      | none => (emitItem item (stubResult item) "stub", lp.2.2 ++ [.brand_resolver])
    else
      match lp.1 with
      | some r => (emitItem item r lp.2.1, lp.2.2)
      | none => (emitItem item (stubResult item) "stub", lp.2.2)

/-- Totals accumulator shape. -/
structure Totals where
  calories : ℚ
  protein_g : ℚ
  carbs_g : ℚ
  fat_g : ℚ
  fiber_g : ℚ
deriving DecidableEq

/-- Initial accumulator of the totals reduce. -/
def zeroTotals : Totals := ⟨0, 0, 0, 0, 0⟩

/-- One step of the totals reduce: every field is acc.f + (item.f || 0). -/
def addTotals (acc : Totals) (i : MacroItemOut) : Totals :=
  { calories := acc.calories + jsOrQ i.calories 0,
    protein_g := acc.protein_g + jsOrQ i.protein_g 0,
    carbs_g := acc.carbs_g + jsOrQ i.carbs_g 0,
    fat_g := acc.fat_g + jsOrQ i.fat_g 0,
    fiber_g := acc.fiber_g + jsOrQ i.fiber_g 0 }

/-- Result of lookupMacrosInCascade (the deduplicated skills_fired list is
not modelled; no claim concerns it). -/
structure CascadeResult where
  items : List MacroItemOut
  totals : Totals
deriving DecidableEq

/-- Embedding of lookupMacrosInCascade: items are processed independently in
order and the totals are the reduce of the emitted results. The function is
total: no provider outcome, including a throw, aborts the lookup. -/
def lookupMacrosInCascade (env : CascadeEnv) (items : List FoodItem) : CascadeResult :=
  let results := items.map (fun it => (lookupOne env it).1)
  { items := results, totals := results.foldl addTotals zeroTotals }

/-! ### Specification-side descriptions used to state the cascade claims -/

/-- Whether a provider outcome wins the loop: it resolves with a result whose
kcal is positive. -/
def winsB (env : CascadeEnv) (n : NormalizedQ) (k : PKey) : Bool :=
  match outcomeOf env n k with
  | .returns (some m) => decide (0 < m.macros.kcal)
  | _ => false

/-- The providers a strict in-order first-winner-stops strategy invokes. -/
def triedInOrder (env : CascadeEnv) (n : NormalizedQ) : List PKey → List PKey
  | [] => []
  | k :: ks => if winsB env n k then [k] else k :: triedInOrder env n ks

/-- The first winning result of a strict in-order scan, if any. -/
def firstWin (env : CascadeEnv) (n : NormalizedQ) : List PKey → Option MacroResult
  | [] => none
  | k :: ks =>
    match outcomeOf env n k with
    | .returns (some m) => if 0 < m.macros.kcal then some m else firstWin env n ks
    | _ => firstWin env n ks

/-- Replace a throwing outcome by a resolved-null outcome. -/
def outcomeToNone : ProviderOutcome → ProviderOutcome
  | .throws => .returns none
  | o => o

/-- The environment in which every provider that would throw resolves with
null instead. -/
def throwsToNone (env : CascadeEnv) : CascadeEnv :=
  { env with
    brandP := fun n => outcomeToNone (env.brandP n),
    genericP := fun n => outcomeToNone (env.genericP n),
    geminiP := fun n => outcomeToNone (env.geminiP n) }

/-- Whether a provider outcome counts as failed-or-zero-calories: it throws,
resolves with null, or resolves with a result of exactly zero kcal. -/
def failsOrZero : ProviderOutcome → Bool
  | .throws => true
  | .returns none => true
  | .returns (some m) => m.macros.kcal == 0

/-! ### Deterministic fallback NLU parser (fallbackNLU of unifiedPipeline.ts)

  const cleanMsg = message.replace(/^(i ate|i had|ate|had)\s+/i, '').trim();
  const items = cleanMsg.split(/,\s+| and | with | plus /i).map(item => {
    const trimmed = item.trim();
    const match = trimmed.match(/^(\d+(?:\.\d+)?)\s*(.+)$/);
    if (match) return { name: match[2], amount: parseFloat(match[1]), unit: null };
    return { name: trimmed, amount: null, unit: null };
  }).filter(x => x.name.length > 0 && x.name !== 'a');

Strings are manipulated as character lists. The JS whitespace class is
modelled by Char.isWhitespace (space, tab, newline, carriage return), which
covers the ASCII alphabet of the messages; case-insensitive matching lowers
both sides with Char.toLower. -/

/-- JS String.prototype.trim on a character list. -/
def trimJS (s : List Char) : List Char :=
  ((s.dropWhile Char.isWhitespace).reverse.dropWhile Char.isWhitespace).reverse

/-- Case-insensitive test that s starts with the (lowercase) pattern p. -/
def startsWithCI (p s : List Char) : Bool :=
  (s.take p.length).map Char.toLower == p

/-- The alternatives of the leading-action regex, in the order the regex
engine tries them. -/
def actionAlternatives : List (List Char) :=
  ["i ate".data, "i had".data, "ate".data, "had".data]

/-- Whether the alternative p followed by at least one whitespace character
matches at the front of s; on success, the remainder after the greedy run of
whitespace. -/
def matchActionAlt (p s : List Char) : Option (List Char) :=
  if startsWithCI p s then
    match s.drop p.length with
    | c :: rest => if c.isWhitespace then some (rest.dropWhile Char.isWhitespace) else none
    | [] => none
  else none

/-- message.replace of the leading eating-action regex: the first alternative
that matches (with its trailing whitespace run) is removed; otherwise the
string is unchanged. -/
def stripLeadingAction (s : List Char) : List Char :=
  match actionAlternatives.findSome? (fun p => matchActionAlt p s) with
  | some rest => rest
  | none => s

/-- Whether the comma alternative of the split regex matches here: a comma
followed by at least one whitespace character. -/
def commaWsAt : List Char → Bool
  | ',' :: c :: _ => c.isWhitespace
  | _ => false

/-- One scan step of String.split on the regex comma-whitespace, space-and-
space, space-with-space, space-plus-space (case-insensitive). Fuel decreases
on every step; it is initialised to the length of the string, which every
step consumes at least one character of. -/
def splitConjGo (fuel : ℕ) (acc : List Char) (s : List Char) : List (List Char) :=
  match fuel with
  | 0 => [acc.reverse]
  | fuel + 1 =>
    match s with
    | [] => [acc.reverse]
    | c :: rest =>
      if commaWsAt (c :: rest) then
        acc.reverse :: splitConjGo fuel [] (rest.dropWhile Char.isWhitespace)
      else if startsWithCI " and ".data (c :: rest) then
        acc.reverse :: splitConjGo fuel [] ((c :: rest).drop 5)
      else if startsWithCI " with ".data (c :: rest) then
        acc.reverse :: splitConjGo fuel [] ((c :: rest).drop 6)
      else if startsWithCI " plus ".data (c :: rest) then
        acc.reverse :: splitConjGo fuel [] ((c :: rest).drop 6)
      else
        splitConjGo fuel (c :: acc) rest

/-- cleanMsg.split of the source regex. -/
def splitConj (s : List Char) : List (List Char) :=
  splitConjGo s.length [] s

/-- The characters the regex dot does not match in JS (no s flag): line
terminators. -/
def dotNoNl (c : Char) : Bool :=
  !(c = '\n' || c = '\r' || c = ' ' || c = ' ')

/-- Candidate list n, n-1, ..., 1. -/
def downFrom (n : ℕ) : List ℕ := (List.range n).map (fun i => n - i)

/-- Backtracking of the whitespace-star and dot-plus tail of the quantity
regex: the whitespace run is consumed greedily, then shortened until the rest
is a non-empty line-terminator-free suffix. Returns the captured name. -/
def tryRestMatch (rest0 : List Char) : Option (List Char) :=
  let w := (rest0.takeWhile Char.isWhitespace).length
  (downFrom (w + 1)).findSome? (fun w1 =>
    let rest := rest0.drop (w1 - 1)
    if rest ≠ [] ∧ rest.all dotNoNl then some rest else none)

/-- Backtracking match of the source regex on a trimmed token: group 1 is a
greedy digit run with an optional greedy dot-digits fraction, then optional
whitespace, and the final group must capture at least one character. Returns
the numeral characters and the captured name, trying longer captures first
exactly as the JS engine does. -/
def matchNumPrefix (t : List Char) : Option (List Char × List Char) :=
  let d := (t.takeWhile Char.isDigit).length
  if d = 0 then none
  else
    (downFrom d).findSome? (fun n =>
      let intPart := t.take n
      let after := t.drop n
      let fracCands : List (List Char × List Char) :=
        (match after with
         | '.' :: rest1 =>
            let f := (rest1.takeWhile Char.isDigit).length
            (downFrom f).map (fun f1 =>
              (intPart ++ '.' :: rest1.take f1, rest1.drop f1))
         | _ => []) ++ [(intPart, after)]
      fracCands.findSome? (fun nr =>
        match tryRestMatch nr.2 with
        | some rest => some (nr.1, rest)
        | none => none))

/-- Numeric value of a digit run. -/
def digitsVal (ds : List Char) : ℕ :=
  ds.foldl (fun a c => a * 10 + (c.toNat - '0'.toNat)) 0

/-- parseFloat on the captured numeral (digits, optionally dot digits). -/
def parseFloatQ (cs : List Char) : ℚ :=
  let intDs := cs.takeWhile Char.isDigit
  match cs.drop intDs.length with
  | '.' :: fs => (digitsVal intDs : ℚ) + (digitsVal fs : ℚ) / ((10 : ℚ) ^ fs.length)
  | _ => (digitsVal intDs : ℚ)

/-- A normalizer output item: name, optional amount, optional unit. -/
structure RawItem where
  name : String
  amount : Option ℚ
  unit : Option String
deriving DecidableEq

/-- The map body of fallbackNLU applied to one split token. -/
def tokenToItem (t : List Char) : RawItem :=
  let trimmed := trimJS t
  match matchNumPrefix trimmed with
  | some nr => { name := String.mk nr.2, amount := some (parseFloatQ nr.1), unit := none }
  | none => { name := String.mk trimmed, amount := none, unit := none }

/-- Embedding of fallbackNLU. -/
def fallbackNLU (message : String) : List RawItem :=
  let cleanMsg := trimJS (stripLeadingAction message.data)
  ((splitConj cleanMsg).map tokenToItem).filter
    (fun x => decide (0 < x.name.length) && x.name != "a")

/-! ### Warnings, verification view and processNutrition
(unifiedPipeline.ts, steps 4 to 6) -/

/-- A warning entry pushed in step 4 of processNutrition. -/
structure Warning where
  wtype : String
  item : Option String
  message : String
deriving DecidableEq

/-- Message of a low-confidence warning. -/
def lowConfidenceMsg (n : String) : String :=
  "Low confidence on \"" ++ n ++ "\" - please verify macros"

/-- Message of a missing-portion warning. -/
def missingPortionMsg (n : String) : String :=
  "Unknown food \"" ++ n ++ "\" - please add quantity and unit"

/-- Step 4 of processNutrition: one pass over the items, pushing a
low_confidence warning when confidence < 0.7 and a missing_portion warning
when all four of calories, protein_g, carbs_g and fat_g are exactly zero. -/
def mkWarnings (items : List MacroItemOut) : List Warning :=
  (items.map (fun i =>
    (if i.confidence < 7/10 then
      [⟨"low_confidence", some i.name, lowConfidenceMsg i.name⟩] else []) ++
    (if i.calories = 0 ∧ i.protein_g = 0 ∧ i.carbs_g = 0 ∧ i.fat_g = 0 then
      [⟨"missing_portion", some i.name, missingPortionMsg i.name⟩] else []))).flatten

/-- A row of the verification view (all numeric fields already rounded). -/
structure VRow where
  name : String
  quantity : Option ℚ
  unit : Option String
  calories : ℚ
  protein_g : ℚ
  carbs_g : ℚ
  fat_g : ℚ
  fiber_g : ℚ
  editable : Bool
deriving DecidableEq

/-- TEF result shape (computeTEF is an external collaborator). -/
structure TefR where
  kcal : ℚ
deriving DecidableEq

/-- TDEE result shape (computeTDEE is an external collaborator). -/
structure TdeeR where
  target_kcal : ℚ
  remaining_kcal : ℚ
  remaining_percentage : ℚ
deriving DecidableEq

/-- The verification view (the eaten_at timestamp string is not modelled; no
claim concerns it). -/
structure VerifyView where
  rows : List VRow
  totals : Totals
  tef : TefR
  tdee : TdeeR
  meal_slot : String
  actions : List String
  warnings : List Warning
deriving DecidableEq

/-- inferMealSlotFromTime of the source, with the wall-clock hour passed in
(the source reads new Date().getHours()). -/
def inferMealSlotFromTime (hour : ℕ) : String :=
  if 6 ≤ hour ∧ hour < 11 then "breakfast"
  else if 11 ≤ hour ∧ hour < 16 then "lunch"
  else if 16 ≤ hour ∧ hour < 22 then "dinner"
  else "snack"

/-- Step 5 of processNutrition: the verification view. Rounding to integers
happens here and only here; the totals passed in are the exact accumulated
sums. The ?? 0 fallbacks of the source never fire in this model because the
macro fields of the results are always numbers. -/
def buildVerify (items : List MacroItemOut) (totals : Totals) (tef : TefR)
    (tdee : TdeeR) (hour : ℕ) (warnings : List Warning) : VerifyView :=
  { rows := items.map (fun i =>
      { name := i.name, quantity := i.quantity, unit := i.unit,
        calories := jsRound i.calories, protein_g := jsRound i.protein_g,
        carbs_g := jsRound i.carbs_g, fat_g := jsRound i.fat_g,
        fiber_g := jsRound i.fiber_g, editable := true }),
    totals := { calories := jsRound totals.calories,
                protein_g := jsRound totals.protein_g,
                carbs_g := jsRound totals.carbs_g,
                fat_g := jsRound totals.fat_g,
                fiber_g := jsRound totals.fiber_g },
    tef := ⟨jsRound tef.kcal⟩,
    tdee := { target_kcal := jsRound tdee.target_kcal,
              remaining_kcal := jsRound tdee.remaining_kcal,
              remaining_percentage := jsRound (tdee.remaining_percentage * 10) / 10 },
    meal_slot := inferMealSlotFromTime hour,
    actions := ["CONFIRM_LOG", "EDIT_ITEMS", "CANCEL"],
    warnings := warnings }

/-- The roleData payload of a successful pipeline run. -/
structure RoleData where
  rtype : String
  view : VerifyView
  items : List MacroItemOut
  totals : Totals
  tef : TefR
  tdee : TdeeR
deriving DecidableEq

/-- The result of processNutrition. -/
structure PipelineResult where
  success : Bool
  roleData : Option RoleData
  error : Option String
deriving DecidableEq

/-- The canned verification view of the dev:force verify override. Fields the
untyped JS object leaves undefined (warnings of the view; brand, confidence,
source and provider of the items) are filled with neutral defaults; no claim
touches them. -/
def devView : VerifyView :=
  { rows :=
    [ { name := "big mac", quantity := some 1, unit := some "piece",
        calories := 219, protein_g := 9.1, carbs_g := 21, fat_g := 12,
        fiber_g := 0.3, editable := true },
      { name := "large fries", quantity := some 1, unit := some "piece",
        calories := 323, protein_g := 3.8, carbs_g := 41, fat_g := 16,
        fiber_g := 3.5, editable := true } ],
    totals := ⟨542, 12.9, 62, 28, 3.8⟩,
    tef := ⟨54⟩,
    tdee := ⟨2000, 1404, 70.2⟩,
    meal_slot := "lunch",
    actions := ["CONFIRM_LOG", "EDIT_ITEMS", "CANCEL"],
    warnings := [] }

/-- One canned dev item. -/
def devItem (nm : String) (c p cb f fb : ℚ) : MacroItemOut :=
  { name := nm, quantity := some 1, unit := some "piece", brand := none,
    serving_label := none, size_label := none, calories := c, protein_g := p,
    carbs_g := cb, fat_g := f, fiber_g := fb, confidence := 0, source := "",
    provider := "" }

/-- The canned roleData of the dev override. -/
def devRoleData : RoleData :=
  { rtype := "tmwya.verify", view := devView,
    items := [devItem "big mac" 219 9.1 21 12 0.3,
              devItem "large fries" 323 3.8 41 16 3.5],
    totals := ⟨542, 12.9, 62, 28, 3.8⟩, tef := ⟨54⟩, tdee := ⟨2000, 1404, 70.2⟩ }

/-- Environment of the external collaborators of processNutrition.
normalizerItems is the outcome of step 1 (the openai-chat normalizer call
followed by JSON-shape checks); some means the call succeeded and yielded a
parsed items array, none means any of the failure branches that route to
fallbackNLU. sanitizeNormalizedItems (a repository module not under src) and
portionResolver, computeTEF and computeTDEE (external collaborators) are
abstract functions; computeTDEE is the awaited call of the try block whose
rejection the surrounding catch converts into a failed result. -/
structure PipeEnv where
  cascade : CascadeEnv
  normalizerItems : Option (List RawItem)
  sanitizeNormalizedItems : List RawItem → List FoodItem
  portionResolver : List FoodItem → List FoodItem
  computeTEF : Totals → TefR
  computeTDEE : Totals → TefR → Except String TdeeR
  hour : ℕ

/-- Embedding of processNutrition. The showLogButton option only controls
upstream UX and is not read by the pipeline body. -/
def processNutrition (env : PipeEnv) (message : String) (showLogButton : Bool) :
    PipelineResult :=
  if message.startsWith "dev:force verify" then
    { success := true, roleData := some devRoleData, error := none }
  else
    let parsedItems :=
      match env.normalizerItems with
      | some its => its
      | none => fallbackNLU message
    let portioned := env.portionResolver (env.sanitizeNormalizedItems parsedItems)
    let macroResults := lookupMacrosInCascade env.cascade portioned
    let tef := env.computeTEF macroResults.totals
    match env.computeTDEE macroResults.totals tef with
    | .error e => { success := false, roleData := none, error := some e }
    | .ok tdee =>
      let warnings := mkWarnings macroResults.items
      let verify := buildVerify macroResults.items macroResults.totals tef tdee
        env.hour warnings
      { success := true,
        roleData := some
          { rtype := "tmwya.verify", view := verify, items := macroResults.items,
            totals := verify.totals, tef := verify.tef, tdee := verify.tdee },
        error := none }

/-! ### Meal commit (logMeal of src/unnamed/part_009)

Supabase query builders resolve with a data/error pair rather than rejecting,
so the modelled persistence calls return outcomes; the explicit throw of e1
and e2 in the source is the only control transfer into the catch block. The
log_meal_atomic RPC call is wrapped in its own try/catch that falls through
to the sequential path, and the upsert_daily_totals call is wrapped in a
try/catch whose handler is empty. -/

/-- Outcome of the atomic RPC call: a rejection, or a response whose log_id is
read (none models both an error response and a response without log_id). -/
inductive RpcOutcome
  | throws
  | returns (log_id : Option String)
deriving DecidableEq

/-- Environment of the persistence calls of logMeal. headerInsert is the
insert-select-single of the header row: an error e1 or a returned id.
itemsInsert is the child insert: some e2 on error. dailyTotalsThrows tells
whether the upsert_daily_totals call rejects. -/
structure LogEnv where
  rpcAtomic : RpcOutcome
  headerInsert : Except String String
  itemsInsert : Option String
  dailyTotalsThrows : Bool

/-- The persisted rows the commit touches: meal-log header ids and
(header id, food name) item rows. -/
structure MealDB where
  headers : List String
  items : List (String × String)
deriving DecidableEq

/-- The result shape of logMeal. -/
structure LogResult where
  ok : Bool
  log_id : Option String
  error : Option String
deriving DecidableEq

/-- Whether the atomic path falls through to the sequential path: the RPC
rejected, returned an error, or returned a falsy log_id (JS truthiness: the
empty string is falsy). -/
def rpcFallsThrough : RpcOutcome → Bool
  | .throws => true
  | .returns none => true
  | .returns (some lid) => lid == ""

/-- The sequential fallback block of logMeal, as a transformer of the
persisted state: insert header, insert items, best-effort daily-totals
update. A failed item insert triggers the compensating deletes (run only when
logId is truthy) and a failed result carrying the thrown message; a
dailyTotals rejection is swallowed by its empty catch, so both outcomes
return the same committed result. -/
def logMealSeq (env : LogEnv) (items : List MacroItemOut) (db : MealDB) :
    LogResult × MealDB :=
  match env.headerInsert with
  | .error e1 => ({ ok := false, log_id := none, error := some e1 }, db)
  | .ok hid =>
    let db1 : MealDB := { db with headers := db.headers ++ [hid] }
    match env.itemsInsert with
    | some e2 =>
      let db2 : MealDB :=
        if hid = "" then db1
        else { headers := db1.headers.filter (fun h => h != hid),
               items := db1.items.filter (fun p => p.1 != hid) }
      ({ ok := false, log_id := none, error := some e2 }, db2)
    | none =>
      let db2 : MealDB :=
        { db1 with items := db1.items ++ items.map (fun i => (hid, i.name)) }
      match env.dailyTotalsThrows with
      | true => ({ ok := true, log_id := some hid, error := none }, db2)
      | false => ({ ok := true, log_id := some hid, error := none }, db2)

/-- Embedding of logMeal: the atomic RPC path commits immediately when it
returns a truthy log_id; a rejection, an error response or a falsy log_id
falls through to the sequential path. -/
def logMeal (env : LogEnv) (items : List MacroItemOut) (db : MealDB) :
    LogResult × MealDB :=
  match env.rpcAtomic with
  | .throws => logMealSeq env items db
  | .returns none => logMealSeq env items db
  | .returns (some lid) =>
    if lid = "" then logMealSeq env items db
    else
      ({ ok := true, log_id := some lid, error := none },
       { headers := db.headers ++ [lid],
         items := db.items ++ items.map (fun i => (lid, i.name)) })

/-! ### Concrete sample data used by witness theorems -/

/-- Whether every caller has returned. -/
def allDone (st : CacheState) : Bool :=
  st.callers.all (fun c => c == CPhase.done)

/-- A sample provider result with positive calories. -/
def eggsResult : MacroResult :=
  { name := "eggs", serving_label := "piece", grams_per_serving := 50,
    macros := ⟨140, 12, 1, 10, 0⟩, confidence := 1, source := "generic" }

/-- A sample item. -/
def eggsItem : FoodItem :=
  { name := "eggs", quantity := some 2, unit := some "piece", brand := none,
    serving_label := none, size_label := none }

/-- Environment in which every external lookup fails or returns nothing. -/
def envAllFail : CascadeEnv :=
  { cache := fun _ => none, brandP := fun _ => .throws,
    genericP := fun _ => .returns none, geminiP := fun _ => .returns none,
    openaiP := fun _ => none, brandResolver := fun _ => none }

/-- Environment in which the global cache hits. -/
def envCacheHit : CascadeEnv :=
  { envAllFail with cache := fun _ => some eggsResult }

/-- Environment in which the generic provider resolves with calories. -/
def envGenericWins : CascadeEnv :=
  { envAllFail with genericP := fun _ => .returns (some eggsResult) }

/-- A trivial pipeline environment for witnesses. -/
def envPipe : PipeEnv :=
  { cascade := envAllFail, normalizerItems := some [],
    sanitizeNormalizedItems := fun _ => [], portionResolver := fun _ => [],
    computeTEF := fun _ => ⟨0⟩, computeTDEE := fun _ _ => .ok ⟨0, 0, 0⟩,
    hour := 12 }

/-- A commit environment whose atomic path is unavailable and whose item
insert fails after a successful header insert. -/
def envLogRollback : LogEnv :=
  { rpcAtomic := .returns none, headerInsert := .ok "log1",
    itemsInsert := some "items insert failed", dailyTotalsThrows := false }

/-- An empty persisted state. -/
def emptyDB : MealDB := ⟨[], []⟩

/-! ## Theorems

Claims C1 to C10 of the specification, settled against the embedding above.
Helper lemmas come first, then one theorem per claim (plus counterexample and
witness theorems where required). -/

/-! ### C9: route cache single-flight -/

theorem loadStep_locked (v : List String) (st : CacheState) (i : ℕ) (w : List String)
    (hc : st.cached = some w)
    (hnf : ∀ c ∈ st.callers, c ≠ CPhase.fetching) :
    (loadStep v st i).cached = some w ∧ (loadStep v st i).fetches = st.fetches ∧
    ∀ c ∈ (loadStep v st i).callers, c ≠ CPhase.fetching := by
  unfold loadStep
  cases hg : st.callers.get? i with
  | none => exact ⟨hc, rfl, hnf⟩
  | some ph =>
    cases ph with
    | done => exact ⟨hc, rfl, hnf⟩
    | fetching =>
      exact absurd rfl (hnf _ (List.get?_mem hg))
    | ready =>
      rw [hc]
      refine ⟨rfl, rfl, fun c hm => ?_⟩
      rcases List.mem_or_eq_of_mem_set hm with h | h
      · exact hnf c h
      · simp [h]

theorem loadRun_locked (v w : List String) (sched : List ℕ) :
    ∀ st : CacheState, st.cached = some w →
    (∀ c ∈ st.callers, c ≠ CPhase.fetching) →
    (loadRun v sched st).fetches = st.fetches := by
  induction sched with
  | nil => intro st _ _; rfl
  | cons i rest ih =>
    intro st hc hnf
    obtain ⟨h1, h2, h3⟩ := loadStep_locked v st i w hc hnf
    have := ih (loadStep v st i) h1 h3
    simpa [loadRun, h2] using this

/-- C9, the claim as stated, is false: with two callers whose initial checks
are both scheduled before either fetch completes, two fetches are issued even
though every caller finishes. The schedule 0, 1, 0, 1 is exactly a second
caller arriving while the first load is suspended on its await. -/
theorem loadRoutesOnce_counterexample :
    ¬ (∀ (n : ℕ) (v : List String) (sched : List ℕ), 1 ≤ n →
        allDone (loadRun v sched (initCache n)) = true →
        (loadRun v sched (initCache n)).fetches = 1) := by
  intro h
  exact absurd (h 2 [] [0, 1, 0, 1] (by decide) (by decide)) (by decide)

/-- C9 amended: loadRoutesOnce is memoized but not single-flight. Once any
one caller has completed a load (here the first caller runs to completion
before anyone else starts), the cached value is non-null and no schedule of
the remaining callers can ever issue another fetch; duplicate fetches occur
only for callers whose initial check runs before the first load completes. -/
theorem loadRoutesOnce_amended (v : List String) (n : ℕ) (hn : 1 ≤ n)
    (sched : List ℕ) :
    (loadRun v (0 :: 0 :: sched) (initCache n)).fetches = 1 := by
  obtain ⟨m, rfl⟩ : ∃ m, n = m + 1 := ⟨n - 1, (Nat.succ_pred_eq_of_pos hn).symm⟩
  have hstep : loadStep v (loadStep v (initCache (m + 1)) 0) 0 =
      { cached := some v, fetches := 1, callers := CPhase.done :: List.replicate m .ready } := by
    simp [initCache, loadStep, List.replicate_succ]
  have hnf : ∀ c ∈ (CPhase.done :: List.replicate m .ready), c ≠ CPhase.fetching := by
    intro c hm
    rcases List.mem_cons.mp hm with h | h
    · simp [h]
    · simp [List.eq_of_mem_replicate h]
  have := loadRun_locked v v sched
    ⟨some v, 1, CPhase.done :: List.replicate m .ready⟩ rfl hnf
  calc (loadRun v (0 :: 0 :: sched) (initCache (m + 1))).fetches
      = (loadRun v sched (loadStep v (loadStep v (initCache (m + 1)) 0) 0)).fetches := rfl
    _ = 1 := by rw [hstep]; exact this

/-- Witness for the amended C9 theorem at two callers: the sequential
schedule 0, 0, 1, 1 issues exactly one fetch. -/
theorem loadRoutesOnce_amended_witness :
    1 ≤ 2 ∧ (loadRun [] (0 :: 0 :: [1, 1]) (initCache 2)).fetches = 1 :=
  ⟨by decide, loadRoutesOnce_amended [] 2 (by decide) [1, 1]⟩

/-! ### C6: cosine similarity and the zero-norm guard -/

theorem sumsq_nonneg {R : Type} [LinearOrderedField R] (a : List R) :
    0 ≤ sumsq a := by
  refine List.sum_nonneg ?_
  intro x hx
  rcases List.mem_map.mp hx with ⟨y, _, rfl⟩
  exact mul_self_nonneg y

/-- C6, the claim as stated, is false: the cosine of part_003/part_005 has no
zero-norm guard. For the zero vector against a unit vector (equal lengths)
the denominator sqrt(0) * sqrt(1) is zero and the JS division yields NaN,
not a well-defined number. -/
theorem cosine_counterexample_c6 :
    ¬ (∀ (a b : List ℝ), a.length = b.length →
        (cosine Real.sqrt a b).isSome = true) := by
  intro h
  have h0 := h [0] [1] rfl
  have hval : cosine Real.sqrt [(0 : ℝ)] [(1 : ℝ)] = none := by
    simp [cosine, sumsq, dotJS]
  rw [hval] at h0
  simp at h0

/-- C6 amended: the router cosine computes dot(a,b) / (sqrt(na) * sqrt(nb))
with no zero-norm guard; a zero-norm input produces NaN (modelled none). For
inputs of equal length whose sums of squares are both non-zero, the result is
the well-defined quotient. -/
theorem cosine_amended_c6 (a b : List ℝ) (hlen : a.length = b.length)
    (ha : sumsq a ≠ 0) (hb : sumsq b ≠ 0) :
    cosine Real.sqrt a b =
      some (dotJS a b / (Real.sqrt (sumsq a) * Real.sqrt (sumsq b))) ∧
    (cosine Real.sqrt a b).isSome = true := by
  have htake : b.take a.length = b := by
    rw [hlen]; exact List.take_length b
  have hsa : Real.sqrt (sumsq a) ≠ 0 :=
    (Real.sqrt_ne_zero (sumsq_nonneg a)).mpr ha
  have hsb : Real.sqrt (sumsq b) ≠ 0 :=
    (Real.sqrt_ne_zero (sumsq_nonneg b)).mpr hb
  have hd : Real.sqrt (sumsq a) * Real.sqrt (sumsq b) ≠ 0 := mul_ne_zero hsa hsb
  have hlt : ¬ b.length < a.length := by omega
  constructor
  · simp only [cosine, htake, if_neg hlt, if_neg hd]
  · simp only [cosine, htake, if_neg hlt, if_neg hd, Option.isSome_some]

/-- Witness for the amended C6 theorem at a concrete unit vector. -/
theorem cosine_amended_c6_witness :
    (([(1 : ℝ)].length = [(1 : ℝ)].length) ∧ sumsq [(1 : ℝ)] ≠ 0) ∧
    (cosine Real.sqrt [(1 : ℝ)] [(1 : ℝ)]).isSome = true :=
  ⟨⟨rfl, by norm_num [sumsq]⟩,
   (cosine_amended_c6 [1] [1] rfl (by norm_num [sumsq]) (by norm_num [sumsq])).2⟩

/-! ### C3: decideRoute best tracking and confidence classification -/

theorem le_foldl_max_init {R : Type} [LinearOrderedField R] (l : List R) :
    ∀ a : R, a ≤ l.foldl max a := by
  induction l with
  | nil => intro a; exact le_refl a
  | cons y l ih =>
    intro a
    exact le_trans (le_max_left a y) (ih (max a y))

theorem mem_le_foldl_max {R : Type} [LinearOrderedField R] (l : List R) :
    ∀ (a x : R), x ∈ l → x ≤ l.foldl max a := by
  induction l with
  | nil => intro a x hx; exact absurd hx (List.not_mem_nil x)
  | cons y l ih =>
    intro a x hx
    rcases List.mem_cons.mp hx with rfl | hx
    · exact le_trans (le_max_right a x) (le_foldl_max_init l (max a x))
    · exact ih (max a y) x hx

theorem foldl_stepBest_sim {R : Type} [LinearOrderedField R] (sqrtR : R → R)
    (q : List R) (rs : List (RouteR R)) :
    ∀ b : BestT R,
      (rs.foldl (stepBest sqrtR q) b).sim = (validSims sqrtR q rs).foldl max b.sim := by
  induction rs with
  | nil => intro b; rfl
  | cons r rs ih =>
    intro b
    by_cases he : r.embedding.isEmpty
    · have he3 : r.embedding = [] := by simpa using he
      have hv : validSims sqrtR q (r :: rs) = validSims sqrtR q rs := by
        simp [validSims, List.filterMap_cons, he3]
      have hb : stepBest sqrtR q b r = b := by simp [stepBest, he]
      rw [List.foldl_cons, hb, hv, ih b]
    · have he2 : r.embedding.isEmpty = false := by simpa using he
      have he3 : ¬ (r.embedding = []) := by simpa using he
      cases hc : cosine sqrtR q r.embedding with
      | none =>
        have hv : validSims sqrtR q (r :: rs) = validSims sqrtR q rs := by
          simp [validSims, List.filterMap_cons, he3, hc]
        have hb : stepBest sqrtR q b r = b := by simp [stepBest, he2, hc]
        rw [List.foldl_cons, hb, hv, ih b]
      | some s =>
        have hstep : stepBest sqrtR q b r =
            if s > b.sim then
              { name := r.name, sim := s, hi := r.hi_threshold.getD (85/100),
                mid := r.mid_threshold.getD (60/100), why := routeWhy r.name }
            else b := by
          simp [stepBest, he2, hc]
        have hv : validSims sqrtR q (r :: rs) = s :: validSims sqrtR q rs := by
          simp [validSims, List.filterMap_cons, he3, hc]
        rw [List.foldl_cons, hstep, hv, List.foldl_cons]
        rcases le_or_lt s b.sim with hle | hlt
        · rw [if_neg (not_lt.mpr hle), ih b, max_eq_left hle]
        · rw [if_pos hlt]
          have : (rs.foldl (stepBest sqrtR q)
              { name := r.name, sim := s, hi := r.hi_threshold.getD (85/100),
                mid := r.mid_threshold.getD (60/100), why := routeWhy r.name }).sim
              = (validSims sqrtR q rs).foldl max s := ih _
          rw [this, max_eq_right (le_of_lt hlt)]

/-- C3: the route loop of decideRoute tracks the single best similarity among
routes with a non-empty embedding over the seed -1 of the default route
(conjunct 1); an equal later score never displaces the incumbent, so ties
keep the first encountered (conjunct 2); any real route scoring at least 0
beats the seed (conjunct 3); confidence is classified high, mid or low
against the winning route thresholds (conjunct 4); and a low-confidence
decision routes to the default AMA route regardless of the scores, while
otherwise the best route is returned (conjuncts 5 and 6). -/
theorem decideRoute_c3 (q : List ℝ) (routes : List (RouteR ℝ)) (hq : q ≠ []) :
    (routes.foldl (stepBest Real.sqrt q) initBest).sim =
      (validSims Real.sqrt q routes).foldl max (-1) ∧
    (∀ (b : BestT ℝ) (r : RouteR ℝ) (s : ℝ), cosine Real.sqrt q r.embedding = some s →
      s ≤ b.sim → stepBest Real.sqrt q b r = b) ∧
    (∀ s ∈ validSims Real.sqrt q routes, 0 ≤ s →
      0 ≤ (routes.foldl (stepBest Real.sqrt q) initBest).sim) ∧
    (decideRoute Real.sqrt q routes).confidence =
      (if (routes.foldl (stepBest Real.sqrt q) initBest).sim ≥
            (routes.foldl (stepBest Real.sqrt q) initBest).hi then "high"
       else if (routes.foldl (stepBest Real.sqrt q) initBest).sim ≥
            (routes.foldl (stepBest Real.sqrt q) initBest).mid then "mid"
       else "low") ∧
    ((decideRoute Real.sqrt q routes).confidence = "low" →
      (decideRoute Real.sqrt q routes).route = "AMA") ∧
    ((decideRoute Real.sqrt q routes).confidence ≠ "low" →
      (decideRoute Real.sqrt q routes).route =
        (routes.foldl (stepBest Real.sqrt q) initBest).name) := by
  have hqe : q.isEmpty = false := by
    cases q with
    | nil => exact absurd rfl hq
    | cons a l => rfl
  have hsim : (routes.foldl (stepBest Real.sqrt q) initBest).sim =
      (validSims Real.sqrt q routes).foldl max (-1) := by
    have := foldl_stepBest_sim Real.sqrt q routes initBest
    simpa [initBest] using this
  refine ⟨hsim, ?_, ?_, ?_, ?_, ?_⟩
  · intro b r s hc hle
    by_cases he : r.embedding.isEmpty
    · simp [stepBest, he]
    · simp [stepBest, he, hc, not_lt.mpr hle]
  · intro s hs hs0
    rw [hsim]
    exact le_trans hs0 (mem_le_foldl_max _ _ _ hs)
  · simp only [decideRoute, hqe, Bool.false_eq_true, if_false]
  · intro hlow
    simp only [decideRoute, hqe, Bool.false_eq_true, if_false] at hlow ⊢
    rw [if_pos hlow]
  · intro hnl
    simp only [decideRoute, hqe, Bool.false_eq_true, if_false] at hnl ⊢
    rw [if_neg hnl]

/-- Witness for C3 at a one-route, one-dimensional instance. -/
theorem decideRoute_c3_witness :
    (([(1 : ℝ)] : List ℝ) ≠ []) ∧
    (([⟨"TMWYA", [1], none, none⟩] : List (RouteR ℝ)).foldl
        (stepBest Real.sqrt [(1 : ℝ)]) initBest).sim =
      (validSims Real.sqrt [(1 : ℝ)] [⟨"TMWYA", [1], none, none⟩]).foldl max (-1) :=
  ⟨by simp, (decideRoute_c3 [1] [⟨"TMWYA", [1], none, none⟩] (by simp)).1⟩

/-! ### C1: cascade short-circuit and strict provider order -/

theorem jsOrQ_zero (x : ℚ) : jsOrQ x 0 = x := by
  unfold jsOrQ
  split
  · simp_all
  · rfl

theorem jsOrS_keep (s d : String) (h : s ≠ "") : jsOrS s d = s := by
  unfold jsOrS
  exact if_neg h

theorem cascadeLoop_invoked (env : CascadeEnv) (n : NormalizedQ) :
    ∀ (ks : List PKey) (mr : Option MacroResult) (used : String),
      (cascadeLoop env n ks mr used).2.2 = triedInOrder env n ks := by
  intro ks
  induction ks with
  | nil => intro mr used; rfl
  | cons k ks ih =>
    intro mr used
    cases ho : outcomeOf env n k with
    | throws =>
      simp [cascadeLoop, triedInOrder, winsB, ho, ih]
    | returns r =>
      cases r with
      | none => simp [cascadeLoop, triedInOrder, winsB, ho, ih]
      | some m =>
        by_cases hk : 0 < m.macros.kcal
        · simp [cascadeLoop, triedInOrder, winsB, ho, hk]
        · simp [cascadeLoop, triedInOrder, winsB, ho, hk, ih]

theorem cascadeLoop_win (env : CascadeEnv) (n : NormalizedQ) :
    ∀ (ks : List PKey) (mr : Option MacroResult) (used : String) (m : MacroResult),
      firstWin env n ks = some m →
      (cascadeLoop env n ks mr used).1 = some m ∧ 0 < m.macros.kcal := by
  intro ks
  induction ks with
  | nil => intro mr used m h; exact absurd h (by simp [firstWin])
  | cons k ks ih =>
    intro mr used m h
    cases ho : outcomeOf env n k with
    | throws =>
      simp only [firstWin, ho] at h
      have := ih mr used m h
      simpa [cascadeLoop, ho] using this
    | returns r =>
      cases r with
      | none =>
        simp only [firstWin, ho] at h
        have := ih none used m h
        simpa [cascadeLoop, ho] using this
      | some m0 =>
        simp only [firstWin, ho] at h
        by_cases hk : 0 < m0.macros.kcal
        · rw [if_pos hk] at h
          injection h with h
          subst h
          simp [cascadeLoop, ho, hk]
        · rw [if_neg hk] at h
          have := ih (some m0) used m h
          simpa [cascadeLoop, ho, hk] using this

theorem cascadeLoop_nowin (env : CascadeEnv) (n : NormalizedQ) :
    ∀ (ks : List PKey) (mr : Option MacroResult) (used : String),
      (∀ k ∈ ks, failsOrZero (outcomeOf env n k) = true) →
      stubCond mr = true →
      stubCond (cascadeLoop env n ks mr used).1 = true := by
  intro ks
  induction ks with
  | nil => intro mr used _ hmr; exact hmr
  | cons k ks ih =>
    intro mr used hall hmr
    have hk := hall k (List.mem_cons_self k ks)
    have hrest : ∀ j ∈ ks, failsOrZero (outcomeOf env n j) = true :=
      fun j hj => hall j (List.mem_cons_of_mem k hj)
    cases ho : outcomeOf env n k with
    | throws =>
      have := ih mr used hrest hmr
      simpa [cascadeLoop, ho] using this
    | returns r =>
      cases r with
      | none =>
        have := ih none used hrest (by simp [stubCond])
        simpa [cascadeLoop, ho] using this
      | some m0 =>
        rw [ho] at hk
        have hz : m0.macros.kcal = 0 := by simpa [failsOrZero] using hk
        have hnk : ¬ 0 < m0.macros.kcal := by rw [hz]; exact lt_irrefl 0
        have := ih (some m0) used hrest (by simp [stubCond, hz])
        simpa [cascadeLoop, ho, hnk] using this

theorem triedInOrder_nowin (env : CascadeEnv) (n : NormalizedQ) :
    ∀ ks : List PKey, firstWin env n ks = none → triedInOrder env n ks = ks := by
  intro ks
  induction ks with
  | nil => intro _; rfl
  | cons k ks ih =>
    intro h
    cases ho : outcomeOf env n k with
    | throws =>
      simp only [firstWin, ho] at h
      simp [triedInOrder, winsB, ho, ih h]
    | returns r =>
      cases r with
      | none =>
        simp only [firstWin, ho] at h
        simp [triedInOrder, winsB, ho, ih h]
      | some m0 =>
        simp only [firstWin, ho] at h
        by_cases hk : 0 < m0.macros.kcal
        · rw [if_pos hk] at h
          exact absurd h (by simp)
        · rw [if_neg hk] at h
          simp [triedInOrder, winsB, ho, hk, ih h]

theorem triedInOrder_eq_take (env : CascadeEnv) (n : NormalizedQ) :
    ∀ (ks : List PKey) (j : ℕ), ks.findIdx? (winsB env n) = some j →
      triedInOrder env n ks = ks.take (j + 1) := by
  intro ks
  induction ks with
  | nil => intro j h; exact Option.noConfusion h
  | cons k ks ih =>
    intro j h
    by_cases hw : winsB env n k
    · rw [List.findIdx?_cons, if_pos hw] at h
      injection h with h
      subst h
      simp [triedInOrder, hw]
    · rw [List.findIdx?_cons, if_neg hw, List.findIdx?_succ] at h
      cases hj : ks.findIdx? (winsB env n) with
      | none => rw [hj] at h; exact Option.noConfusion h
      | some j0 =>
        rw [hj] at h
        simp at h
        subst h
        simp [triedInOrder, hw, ih j0 hj]

theorem outcomeOf_throwsToNone (env : CascadeEnv) (n : NormalizedQ) (k : PKey) :
    outcomeOf (throwsToNone env) n k = outcomeToNone (outcomeOf env n k) := by
  cases k <;> simp [outcomeOf, throwsToNone] <;> rfl

theorem winsB_throwsToNone (env : CascadeEnv) (n : NormalizedQ) (k : PKey) :
    winsB (throwsToNone env) n k = winsB env n k := by
  rw [winsB, winsB, outcomeOf_throwsToNone]
  cases ho : outcomeOf env n k with
  | throws => rfl
  | returns r => cases r <;> rfl

theorem triedInOrder_congr (env1 env2 : CascadeEnv) (n : NormalizedQ)
    (h : ∀ k, winsB env1 n k = winsB env2 n k) :
    ∀ ks : List PKey, triedInOrder env1 n ks = triedInOrder env2 n ks := by
  intro ks
  induction ks with
  | nil => rfl
  | cons k ks ih => simp [triedInOrder, h k, ih]

/-- C1: the macro lookup cascade. A global-cache hit invokes no provider
function at all (conjunct 1). On a cache miss the providers run strictly in
the selected order: if some provider is the first to resolve a result with
positive kcal, the invoked providers are exactly the order list up to and
including that winner (no retry either, since its kcal is positive) and the
emitted item carries the winner macros (conjunct 2a); if no provider wins,
every provider of the order list is invoked (conjunct 2b). A provider that
throws is treated the same as one resolving null: replacing every throw by a
null resolution leaves the loop invocation sequence unchanged (conjunct 3),
and the lookup never aborts: every input item yields exactly one emitted
result regardless of the provider outcomes (conjunct 4). -/
theorem lookupMacros_cascade_c1 (env : CascadeEnv) (item : FoodItem)
    (items : List FoodItem) :
    ((env.cache (mkNormalized item)).isSome = true → (lookupOne env item).2 = []) ∧
    (env.cache (mkNormalized item) = none →
      (∀ m : MacroResult,
        firstWin env (mkNormalized item) (orderFor (mkNormalized item).is_branded) = some m →
        (lookupOne env item).2 =
          triedInOrder env (mkNormalized item) (orderFor (mkNormalized item).is_branded) ∧
        (lookupOne env item).1.calories = m.macros.kcal ∧
        (lookupOne env item).1.protein_g = m.macros.protein_g ∧
        (lookupOne env item).1.carbs_g = m.macros.carbs_g ∧
        (lookupOne env item).1.fat_g = m.macros.fat_g ∧
        (lookupOne env item).1.fiber_g = m.macros.fiber_g) ∧
      (firstWin env (mkNormalized item) (orderFor (mkNormalized item).is_branded) = none →
        (cascadeLoop env (mkNormalized item) (orderFor (mkNormalized item).is_branded)
            none "global_cache").2.2 =
          orderFor (mkNormalized item).is_branded)) ∧
    ((cascadeLoop (throwsToNone env) (mkNormalized item)
        (orderFor (mkNormalized item).is_branded) none "global_cache").2.2 =
      (cascadeLoop env (mkNormalized item) (orderFor (mkNormalized item).is_branded)
        none "global_cache").2.2) ∧
    (lookupMacrosInCascade env items).items.length = items.length := by
  refine ⟨?_, ?_, ?_, ?_⟩
  · intro hc
    rcases Option.isSome_iff_exists.mp hc with ⟨r, hr⟩
    simp [lookupOne, hr]
  · intro hc
    constructor
    · intro m hwin
      obtain ⟨hmr, hk⟩ := cascadeLoop_win env (mkNormalized item) _ none "global_cache" m hwin
      have hstub : stubCond (cascadeLoop env (mkNormalized item)
          (orderFor (mkNormalized item).is_branded) none "global_cache").1 = false := by
        rw [hmr]
        simp [stubCond, ne_of_gt hk]
      have hout : lookupOne env item =
          (emitItem item m (cascadeLoop env (mkNormalized item)
            (orderFor (mkNormalized item).is_branded) none "global_cache").2.1,
           (cascadeLoop env (mkNormalized item)
            (orderFor (mkNormalized item).is_branded) none "global_cache").2.2) := by
        simp only [lookupOne, hc]
        rw [hstub]
        simp [hmr]
      rw [hout]
      refine ⟨cascadeLoop_invoked env (mkNormalized item) _ none "global_cache", ?_, ?_, ?_, ?_, ?_⟩
        <;> simp [emitItem, jsOrQ_zero]
    · intro hno
      rw [cascadeLoop_invoked]
      exact triedInOrder_nowin env (mkNormalized item) _ hno
  · rw [cascadeLoop_invoked, cascadeLoop_invoked]
    exact triedInOrder_congr _ _ _ (winsB_throwsToNone env (mkNormalized item)) _
  · simp [lookupMacrosInCascade]

/-- Witness for C1: a cache hit invokes no provider, and a win of the generic
provider makes the invocation list exactly the strict in-order prefix. -/
theorem lookupMacros_cascade_c1_witness :
    ((envCacheHit.cache (mkNormalized eggsItem)).isSome = true ∧
      (lookupOne envCacheHit eggsItem).2 = []) ∧
    (envGenericWins.cache (mkNormalized eggsItem) = none ∧
      (lookupOne envGenericWins eggsItem).2 =
        triedInOrder envGenericWins (mkNormalized eggsItem)
          (orderFor (mkNormalized eggsItem).is_branded)) :=
  ⟨⟨by decide, (lookupMacros_cascade_c1 envCacheHit eggsItem []).1 (by decide)⟩,
   ⟨rfl, (((lookupMacros_cascade_c1 envGenericWins eggsItem []).2.1 rfl).1
      eggsResult (by decide)).1⟩⟩

/-! ### C2: stub fallback and missing_portion warning -/

/-- C2: when the global cache misses and every provider of the order list
(which always includes the final brand_resolver, whose outcome also governs
the explicit retry) throws or resolves nothing or zero calories, the emitted
result is the stub: all five macro fields 0, confidence 0.1, source stub
(conjuncts 1 to 7); any results list containing this item receives a
missing_portion warning naming it (conjunct 8); and the lookup still
succeeds, emitting exactly this one result for the item (conjunct 9). -/
theorem lookupMacros_stub_c2 (env : CascadeEnv) (item : FoodItem)
    (hcache : env.cache (mkNormalized item) = none)
    (hall : ∀ k ∈ orderFor (mkNormalized item).is_branded,
      failsOrZero (outcomeOf env (mkNormalized item) k) = true) :
    (lookupOne env item).1.calories = 0 ∧
    (lookupOne env item).1.protein_g = 0 ∧
    (lookupOne env item).1.carbs_g = 0 ∧
    (lookupOne env item).1.fat_g = 0 ∧
    (lookupOne env item).1.fiber_g = 0 ∧
    (lookupOne env item).1.confidence = 1/10 ∧
    (lookupOne env item).1.source = "stub" ∧
    (∀ its : List MacroItemOut, (lookupOne env item).1 ∈ its →
      ∃ w ∈ mkWarnings its, w.wtype = "missing_portion" ∧
        w.item = some (lookupOne env item).1.name) ∧
    (lookupMacrosInCascade env [item]).items = [(lookupOne env item).1] := by
  have hbrmem : PKey.brand_resolver ∈ orderFor (mkNormalized item).is_branded := by
    cases (mkNormalized item).is_branded <;> decide
  have hbr := hall PKey.brand_resolver hbrmem
  rw [show outcomeOf env (mkNormalized item) PKey.brand_resolver =
      .returns (env.brandResolver (mkNormalized item)) from rfl] at hbr
  have hstub : stubCond (cascadeLoop env (mkNormalized item)
      (orderFor (mkNormalized item).is_branded) none "global_cache").1 = true :=
    cascadeLoop_nowin env (mkNormalized item) _ none "global_cache" hall (by simp [stubCond])
  have hout : (lookupOne env item).1 = emitItem item (stubResult item) "stub" := by
    simp only [lookupOne, hcache]
    rw [hstub]
    cases hbrv : env.brandResolver (mkNormalized item) with
    | none => simp
    | some r2 =>
      rw [hbrv] at hbr
      have hz : r2.macros.kcal = 0 := by simpa [failsOrZero] using hbr
      simp [stubCond, hz]
  have hfields : (lookupOne env item).1.calories = 0 ∧
      (lookupOne env item).1.protein_g = 0 ∧
      (lookupOne env item).1.carbs_g = 0 ∧
      (lookupOne env item).1.fat_g = 0 ∧
      (lookupOne env item).1.fiber_g = 0 ∧
      (lookupOne env item).1.confidence = 1/10 ∧
      (lookupOne env item).1.source = "stub" := by
    rw [hout]
    simp only [emitItem, stubResult]
    refine ⟨?_, ?_, ?_, ?_, ?_, ?_, ?_⟩
    · simp [jsOrQ]
    · simp [jsOrQ]
    · simp [jsOrQ]
    · simp [jsOrQ]
    · simp [jsOrQ]
    · simp [jsOrQ]
    · rw [jsOrS_keep _ _ (by decide)]
  obtain ⟨h1, h2, h3, h4, h5, h6, h7⟩ := hfields
  refine ⟨h1, h2, h3, h4, h5, h6, h7, ?_, ?_⟩
  · intro its hmem
    refine ⟨⟨"missing_portion", some (lookupOne env item).1.name,
      missingPortionMsg (lookupOne env item).1.name⟩, ?_, rfl, rfl⟩
    rw [mkWarnings]
    refine List.mem_flatten.mpr
      ⟨_, List.mem_map_of_mem _ hmem, List.mem_append_right _ ?_⟩
    rw [if_pos ⟨h1, h2, h3, h4⟩]
    exact List.mem_singleton.mpr rfl
  · simp [lookupMacrosInCascade]

/-- Witness for C2 with an environment in which every provider fails. -/
theorem lookupMacros_stub_c2_witness :
    (envAllFail.cache (mkNormalized eggsItem) = none ∧
      ∀ k ∈ orderFor (mkNormalized eggsItem).is_branded,
        failsOrZero (outcomeOf envAllFail (mkNormalized eggsItem) k) = true) ∧
    (lookupOne envAllFail eggsItem).1.source = "stub" :=
  ⟨⟨rfl, by decide⟩,
   (lookupMacros_stub_c2 envAllFail eggsItem rfl (by decide)).2.2.2.2.2.2.1⟩

/-! ### C4: totals are exact elementwise sums, rounded only in the view -/

theorem foldl_addTotals (l : List MacroItemOut) :
    ∀ acc : Totals,
      (l.foldl addTotals acc).calories = acc.calories + (l.map (fun i => i.calories)).sum ∧
      (l.foldl addTotals acc).protein_g = acc.protein_g + (l.map (fun i => i.protein_g)).sum ∧
      (l.foldl addTotals acc).carbs_g = acc.carbs_g + (l.map (fun i => i.carbs_g)).sum ∧
      (l.foldl addTotals acc).fat_g = acc.fat_g + (l.map (fun i => i.fat_g)).sum ∧
      (l.foldl addTotals acc).fiber_g = acc.fiber_g + (l.map (fun i => i.fiber_g)).sum := by
  induction l with
  | nil => intro acc; simp
  | cons i l ih =>
    intro acc
    obtain ⟨h1, h2, h3, h4, h5⟩ := ih (addTotals acc i)
    rw [List.foldl_cons]
    refine ⟨?_, ?_, ?_, ?_, ?_⟩
    · rw [h1]; simp only [addTotals, jsOrQ_zero, List.map_cons, List.sum_cons]; ring
    · rw [h2]; simp only [addTotals, jsOrQ_zero, List.map_cons, List.sum_cons]; ring
    · rw [h3]; simp only [addTotals, jsOrQ_zero, List.map_cons, List.sum_cons]; ring
    · rw [h4]; simp only [addTotals, jsOrQ_zero, List.map_cons, List.sum_cons]; ring
    · rw [h5]; simp only [addTotals, jsOrQ_zero, List.map_cons, List.sum_cons]; ring

/-- C4: the totals of the macro lookup are the exact elementwise sums of the
emitted item values over all five numeric fields, with no rounding during
accumulation (conjuncts 1 to 5); the verification view rounds each total to
an integer from the exact sum, at view-build time only (conjuncts 6 to 10). -/
theorem totals_additivity_c4 (env : CascadeEnv) (items : List FoodItem)
    (tef : TefR) (tdee : TdeeR) (hour : ℕ) (ws : List Warning) :
    (lookupMacrosInCascade env items).totals.calories =
      ((lookupMacrosInCascade env items).items.map (fun i => i.calories)).sum ∧
    (lookupMacrosInCascade env items).totals.protein_g =
      ((lookupMacrosInCascade env items).items.map (fun i => i.protein_g)).sum ∧
    (lookupMacrosInCascade env items).totals.carbs_g =
      ((lookupMacrosInCascade env items).items.map (fun i => i.carbs_g)).sum ∧
    (lookupMacrosInCascade env items).totals.fat_g =
      ((lookupMacrosInCascade env items).items.map (fun i => i.fat_g)).sum ∧
    (lookupMacrosInCascade env items).totals.fiber_g =
      ((lookupMacrosInCascade env items).items.map (fun i => i.fiber_g)).sum ∧
    (buildVerify (lookupMacrosInCascade env items).items
        (lookupMacrosInCascade env items).totals tef tdee hour ws).totals.calories =
      jsRound (((lookupMacrosInCascade env items).items.map (fun i => i.calories)).sum) ∧
    (buildVerify (lookupMacrosInCascade env items).items
        (lookupMacrosInCascade env items).totals tef tdee hour ws).totals.protein_g =
      jsRound (((lookupMacrosInCascade env items).items.map (fun i => i.protein_g)).sum) ∧
    (buildVerify (lookupMacrosInCascade env items).items
        (lookupMacrosInCascade env items).totals tef tdee hour ws).totals.carbs_g =
      jsRound (((lookupMacrosInCascade env items).items.map (fun i => i.carbs_g)).sum) ∧
    (buildVerify (lookupMacrosInCascade env items).items
        (lookupMacrosInCascade env items).totals tef tdee hour ws).totals.fat_g =
      jsRound (((lookupMacrosInCascade env items).items.map (fun i => i.fat_g)).sum) ∧
    (buildVerify (lookupMacrosInCascade env items).items
        (lookupMacrosInCascade env items).totals tef tdee hour ws).totals.fiber_g =
      jsRound (((lookupMacrosInCascade env items).items.map (fun i => i.fiber_g)).sum) := by
  have hdef : (lookupMacrosInCascade env items).totals =
      (lookupMacrosInCascade env items).items.foldl addTotals zeroTotals := rfl
  obtain ⟨h1, h2, h3, h4, h5⟩ :=
    foldl_addTotals (lookupMacrosInCascade env items).items zeroTotals
  have z1 : (lookupMacrosInCascade env items).totals.calories =
      ((lookupMacrosInCascade env items).items.map (fun i => i.calories)).sum := by
    rw [hdef, h1]; simp [zeroTotals]
  have z2 : (lookupMacrosInCascade env items).totals.protein_g =
      ((lookupMacrosInCascade env items).items.map (fun i => i.protein_g)).sum := by
    rw [hdef, h2]; simp [zeroTotals]
  have z3 : (lookupMacrosInCascade env items).totals.carbs_g =
      ((lookupMacrosInCascade env items).items.map (fun i => i.carbs_g)).sum := by
    rw [hdef, h3]; simp [zeroTotals]
  have z4 : (lookupMacrosInCascade env items).totals.fat_g =
      ((lookupMacrosInCascade env items).items.map (fun i => i.fat_g)).sum := by
    rw [hdef, h4]; simp [zeroTotals]
  have z5 : (lookupMacrosInCascade env items).totals.fiber_g =
      ((lookupMacrosInCascade env items).items.map (fun i => i.fiber_g)).sum := by
    rw [hdef, h5]; simp [zeroTotals]
  refine ⟨z1, z2, z3, z4, z5, ?_, ?_, ?_, ?_, ?_⟩
  · simp only [buildVerify]; rw [z1]
  · simp only [buildVerify]; rw [z2]
  · simp only [buildVerify]; rw [z3]
  · simp only [buildVerify]; rw [z4]
  · simp only [buildVerify]; rw [z5]

/-! ### C7: deterministic fallback parser -/

/-- C7, the claim as stated, is false: the fallback parser only discards the
filler token a; the token the (and likewise an and some) survives into the
returned item list. -/
theorem fallbackNLU_counterexample_c7 :
    ¬ (∀ (m : String) (it : RawItem), it ∈ fallbackNLU m →
        it.name ∉ (["", "a", "an", "the", "some"] : List String)) := by
  intro h
  exact h "I ate eggs, the" ⟨"the", none, none⟩ (by decide) (by decide)

/-- C7 amended: every returned item comes from stripping a leading
eating-action phrase, splitting on the conjunction/comma separators, and
regex-extracting an optional leading numeric quantity (unit always null);
the filter discards only empty tokens and the single filler token a, not an,
the or some. -/
theorem fallbackNLU_amended_c7 (m : String) (it : RawItem)
    (hm : it ∈ fallbackNLU m) :
    it.name ≠ "" ∧ it.name ≠ "a" ∧ it.unit = none ∧
    ∃ t ∈ splitConj (trimJS (stripLeadingAction m.data)), tokenToItem t = it := by
  unfold fallbackNLU at hm
  rw [List.mem_filter] at hm
  obtain ⟨hmem, hp⟩ := hm
  rw [Bool.and_eq_true] at hp
  obtain ⟨hlen, hna⟩ := hp
  have hlen2 : 0 < it.name.length := of_decide_eq_true hlen
  have hne : it.name ≠ "" := by
    intro he
    rw [he] at hlen2
    simp at hlen2
  have hna2 : it.name ≠ "a" := by
    intro he
    rw [he] at hna
    simp at hna
  obtain ⟨t, ht, heq⟩ := List.mem_map.mp hmem
  have hunit : it.unit = none := by
    rw [← heq]
    cases h : matchNumPrefix (trimJS t) <;> simp [tokenToItem, h]
  exact ⟨hne, hna2, hunit, t, ht, heq⟩

/-- Witness for the amended C7 theorem. -/
theorem fallbackNLU_amended_c7_witness :
    ((⟨"eggs", none, none⟩ : RawItem) ∈ fallbackNLU "I ate eggs") ∧
    (⟨"eggs", none, none⟩ : RawItem).name ≠ "" :=
  ⟨by decide, (fallbackNLU_amended_c7 "I ate eggs" ⟨"eggs", none, none⟩ (by decide)).1⟩

/-! ### C8: the verification view always offers commit, edit and cancel -/

theorem processNutrition_success_view (env : PipeEnv) (message : String)
    (sb : Bool) (h : (processNutrition env message sb).success = true) :
    ∃ rd : RoleData, (processNutrition env message sb).roleData = some rd ∧
      rd.view.actions = ["CONFIRM_LOG", "EDIT_ITEMS", "CANCEL"] := by
  by_cases hdev : message.startsWith "dev:force verify"
  · refine ⟨devRoleData, ?_, rfl⟩
    simp [processNutrition, hdev]
  · have hd2 : message.startsWith "dev:force verify" = false := by
      simpa using hdev
    simp only [processNutrition, hd2, Bool.false_eq_true, if_false] at h ⊢
    cases htd : env.computeTDEE
        (lookupMacrosInCascade env.cascade
          (env.portionResolver (env.sanitizeNormalizedItems
            (match env.normalizerItems with
             | some its => its
             | none => fallbackNLU message)))).totals
        (env.computeTEF
          (lookupMacrosInCascade env.cascade
            (env.portionResolver (env.sanitizeNormalizedItems
              (match env.normalizerItems with
               | some its => its
               | none => fallbackNLU message)))).totals) with
    | error e =>
      rw [htd] at h
      exact absurd h Bool.false_ne_true
    | ok tdee => exact ⟨_, rfl, rfl⟩

/-- C8: every successful run of the nutrition pipeline produces a
verification view whose actions list contains the commit, edit and cancel
actions, for every message (including the dev override) and regardless of
the showLogButton flag that distinguishes a food question from a
meal-logging statement. -/
theorem processNutrition_actions_c8 (env : PipeEnv) (message : String)
    (sb : Bool) (h : (processNutrition env message sb).success = true) :
    ∃ rd : RoleData, (processNutrition env message sb).roleData = some rd ∧
      "CONFIRM_LOG" ∈ rd.view.actions ∧ "EDIT_ITEMS" ∈ rd.view.actions ∧
      "CANCEL" ∈ rd.view.actions := by
  obtain ⟨rd, hrd, hact⟩ := processNutrition_success_view env message sb h
  refine ⟨rd, hrd, ?_, ?_, ?_⟩ <;> rw [hact] <;> decide

/-- Witness for C8 on a trivial environment, once for a plain message with
the log button and once for a question-style call without it. -/
theorem processNutrition_actions_c8_witness :
    ((processNutrition envPipe "eggs" true).success = true ∧
      ∃ rd : RoleData, (processNutrition envPipe "eggs" true).roleData = some rd ∧
        "CONFIRM_LOG" ∈ rd.view.actions ∧ "EDIT_ITEMS" ∈ rd.view.actions ∧
        "CANCEL" ∈ rd.view.actions) ∧
    ((processNutrition envPipe "macros of eggs" false).success = true ∧
      ∃ rd : RoleData,
        (processNutrition envPipe "macros of eggs" false).roleData = some rd ∧
        "CONFIRM_LOG" ∈ rd.view.actions ∧ "EDIT_ITEMS" ∈ rd.view.actions ∧
        "CANCEL" ∈ rd.view.actions) :=
  ⟨⟨by decide, processNutrition_actions_c8 envPipe "eggs" true (by decide)⟩,
   ⟨by decide,
    processNutrition_actions_c8 envPipe "macros of eggs" false (by decide)⟩⟩

/-! ### C5: sequential commit rollback -/

/-- C5: on the sequential commit path (atomic RPC unavailable), when the item
insert fails after a successful header insert of a fresh truthy id, the
already-inserted items and the header row are deleted, the commit returns a
failed result carrying the underlying error message, and the persisted state
is exactly the initial one: no orphan meal-log row remains (conjunct 1). A
failure of the derived daily-totals update is swallowed: with the item insert
succeeding, the commit reports ok with the header id whether or not that
update throws (conjunct 2). -/
theorem logMeal_rollback_c5 (env : LogEnv) (items : List MacroItemOut)
    (db : MealDB) (hid : String) (e2 : String)
    (hrpc : rpcFallsThrough env.rpcAtomic = true)
    (hhead : env.headerInsert = Except.ok hid)
    (hid0 : hid ≠ "")
    (hfreshH : hid ∉ db.headers)
    (hfreshI : ∀ p ∈ db.items, p.1 ≠ hid)
    (hitems : env.itemsInsert = some e2) :
    logMeal env items db = ({ ok := false, log_id := none, error := some e2 }, db) ∧
    (∀ env2 : LogEnv, rpcFallsThrough env2.rpcAtomic = true →
      env2.headerInsert = Except.ok hid → env2.itemsInsert = none →
      (logMeal env2 items db).1.ok = true ∧
      (logMeal env2 items db).1.log_id = some hid) := by
  have hbridge : ∀ env3 : LogEnv, rpcFallsThrough env3.rpcAtomic = true →
      logMeal env3 items db = logMealSeq env3 items db := by
    intro env3 h3
    cases hr : env3.rpcAtomic with
    | throws => simp [logMeal, hr]
    | returns o =>
      cases o with
      | none => simp [logMeal, hr]
      | some lid =>
        rw [hr] at h3
        have : lid = "" := by simpa [rpcFallsThrough] using h3
        simp [logMeal, hr, this]
  constructor
  · rw [hbridge env hrpc]
    have hH : (db.headers ++ [hid]).filter (fun h => h != hid) = db.headers := by
      rw [List.filter_append]
      have e1 : db.headers.filter (fun h => h != hid) = db.headers :=
        List.filter_eq_self.mpr (fun a ha =>
          bne_iff_ne.mpr (fun he => hfreshH (he ▸ ha)))
      have e2 : List.filter (fun h => h != hid) [hid] = [] := by
        simp [List.filter]
      rw [e1, e2, List.append_nil]
    have hI : db.items.filter (fun p => p.1 != hid) = db.items :=
      List.filter_eq_self.mpr (fun p hp => bne_iff_ne.mpr (hfreshI p hp))
    simp only [logMealSeq, hhead, hitems, if_neg hid0]
    rw [hH, hI]
  · intro env2 h1 h2 h3
    rw [hbridge env2 h1]
    simp only [logMealSeq, h2, h3]
    cases env2.dailyTotalsThrows <;> simp

/-- Witness for C5: a concrete failed item insert rolls back, and flipping
only the item insert to success commits even when daily totals throw. -/
theorem logMeal_rollback_c5_witness :
    (rpcFallsThrough envLogRollback.rpcAtomic = true ∧
      envLogRollback.headerInsert = Except.ok "log1" ∧
      ("log1" : String) ≠ "" ∧
      ("log1" : String) ∉ emptyDB.headers ∧
      envLogRollback.itemsInsert = some "items insert failed") ∧
    logMeal envLogRollback [] emptyDB =
      ({ ok := false, log_id := none, error := some "items insert failed" }, emptyDB) :=
  ⟨⟨rfl, rfl, by decide, by decide, rfl⟩,
   (logMeal_rollback_c5 envLogRollback [] emptyDB "log1" "items insert failed"
      rfl rfl (by decide) (by decide)
      (fun p hp => absurd hp (List.not_mem_nil p)) rfl).1⟩

/-! ### C10: the logMeal result contract -/

theorem logMealSeq_contract (env : LogEnv) (items : List MacroItemOut)
    (db : MealDB) :
    ((logMealSeq env items db).1.ok = true ↔
      (logMealSeq env items db).1.log_id ≠ none) ∧
    ((logMealSeq env items db).1.error ≠ none ↔
      (logMealSeq env items db).1.ok = false) := by
  unfold logMealSeq
  cases env.headerInsert with
  | error e1 => simp
  | ok hid =>
    cases env.itemsInsert with
    | some e2 => simp
    | none => cases env.dailyTotalsThrows <;> simp

/-- C10: logMeal always resolves to a structured result (the embedding is a
total function: no persistence outcome, including RPC and daily-totals
rejections, escapes it), and that result satisfies the contract: ok is true
exactly when log_id is non-null, and error is non-null exactly when ok is
false. -/
theorem logMeal_contract_c10 (env : LogEnv) (items : List MacroItemOut)
    (db : MealDB) :
    ((logMeal env items db).1.ok = true ↔ (logMeal env items db).1.log_id ≠ none) ∧
    ((logMeal env items db).1.error ≠ none ↔ (logMeal env items db).1.ok = false) := by
  have hseq := logMealSeq_contract env items db
  cases hr : env.rpcAtomic with
  | throws => simpa [logMeal, hr] using hseq
  | returns o =>
    cases o with
    | none => simpa [logMeal, hr] using hseq
    | some lid =>
      by_cases hl : lid = ""
      · simpa [logMeal, hr, hl] using hseq
      · simp [logMeal, hr, hl]

end HiPat
